import Mathlib

/-!
Verification of the spreadsheet reconciler in `scripts/loveadmin_fa_reconcile.py`
(CLI variant, function `merge_datasets`) and `scripts/loveadmin_fa_reconcile_gui.py`
(GUI variant, handler `validate_and_merge`).

The two scripts load two spreadsheets with pandas, rename the LoveAdmin name
columns, add boolean presence flags, compute a full outer join on
("First names", "Surname"), fill missing flags with False and write the result.
The development below is a shallow embedding of that pipeline: spreadsheets
become lists of rows, a row is an association list from column name to cell,
and the pandas calls (`read_excel`, `rename`, column assignment, `merge`,
`fillna`, `to_excel`) are modelled by executable Lean functions on that
representation.  Fallible steps return `Except Err`.
-/

/-- A spreadsheet cell: missing (pandas NaN), a text value, or a boolean. -/
inductive Cell where
  | null : Cell
  | str : String → Cell
  | bool : Bool → Cell
deriving DecidableEq

/-- A row of a dataframe: ordered association list from column name to cell. -/
abbrev Row := List (String × Cell)

/-- A pandas DataFrame: the column labels in order, and the rows.  In a
well-formed frame (`DataFrame.WF`) every row lists exactly the columns, in
order. -/
structure DataFrame where
  cols : List String
  rows : List Row
deriving DecidableEq

/-- Value of a row at a column label: the first matching entry, `null` if the
column is absent. -/
def getCell : Row → String → Cell
  | [], _ => Cell.null
  | p :: r, c => if p.1 = c then p.2 else getCell r c

/-- Does the row carry an entry for the column label? -/
def hasCol : Row → String → Bool
  | [], _ => false
  | p :: r, c => if p.1 = c then true else hasCol r c

/-- Well-formedness: each row has exactly the frame's columns as its labels. -/
def DataFrame.WF (f : DataFrame) : Prop := ∀ r ∈ f.rows, r.map Prod.fst = f.cols

instance decidableWF (f : DataFrame) : Decidable f.WF :=
  inferInstanceAs (Decidable (∀ r ∈ f.rows, r.map Prod.fst = f.cols))

/-- The column renaming applied to the LoveAdmin frame:
`rename(columns = mapping from "Last name" to "Surname" and "First name" to
"First names")`.  pandas' `rename` leaves all other labels unchanged and
ignores mapping keys that do not occur. -/
def stdRename (c : String) : String :=
  if c = "Last name" then "Surname" else if c = "First name" then "First names" else c

/-- Renaming applied to one row's labels. -/
def renameRow (r : Row) : Row := r.map (fun p => (stdRename p.1, p.2))

/-- Frame-level rename: `loveadmin_data.rename(columns = standard mapping)`. -/
def renameFrame (f : DataFrame) : DataFrame :=
  DataFrame.mk (f.cols.map stdRename) (f.rows.map renameRow)

/-- Overwrite the value of every entry labelled `c` in a row. -/
def setEntry (c : String) (v : Cell) (r : Row) : Row :=
  r.map (fun p => if p.1 = c then (p.1, v) else p)

/-- Column assignment `df[c] = v` (broadcast scalar): overwrite the column if
present, otherwise append it on the right with `v` in every row. -/
def setCol (f : DataFrame) (c : String) (v : Cell) : DataFrame :=
  if c ∈ f.cols then DataFrame.mk f.cols (f.rows.map (setEntry c v))
  else DataFrame.mk (f.cols ++ [c]) (f.rows.map (fun r => r ++ [(c, v)]))

/-- The join keys of `pd.merge(..., on = both name columns)`. -/
def keyCols : List String := ["First names", "Surname"]

/-- The join key of a row. -/
def keyOf (r : Row) : Cell × Cell := (getCell r "First names", getCell r "Surname")

/-- Is a column label not a join key?  (Used to drop the right copy of the
key columns in the merge result.) -/
def nonKey (c : String) : Bool := !(decide (c ∈ keyCols))

/-- Result label of a left-frame column in the merge: pandas suffixes an
overlapping non-key label with the default left suffix. -/
def asuf (A B : DataFrame) (c : String) : String :=
  if c ∈ keyCols then c else if c ∈ B.cols then c ++ "_x" else c

/-- Result label of a right-frame column in the merge: default right suffix. -/
def bsuf (A B : DataFrame) (c : String) : String :=
  if c ∈ keyCols then c else if c ∈ A.cols then c ++ "_y" else c

/-- One row of the merge result: the left frame's columns (with suffixed
labels) valued from `ra`, then the right frame's non-key columns valued from
`rb`. -/
def joinRows (A B : DataFrame) (ra rb : Row) : Row :=
  A.cols.map (fun c => (asuf A B c, getCell ra c))
    ++ (B.cols.filter nonKey).map (fun c => (bsuf A B c, getCell rb c))

/-- The absent counterpart of an unmatched left row: every lookup yields
`null`, exactly pandas' NaN filling of an outer join. -/
def nullRow : Row := []

/-- The key part of an unmatched right row: in an outer join the key columns
of a right-only row are populated from the right frame. -/
def projKeys (rb : Row) : Row :=
  [("First names", getCell rb "First names"), ("Surname", getCell rb "Surname")]

/-- Column labels of the merge result, in pandas order: left columns then
right non-key columns, overlaps suffixed. -/
def outerMergeCols (A B : DataFrame) : List String :=
  A.cols.map (asuf A B) ++ (B.cols.filter nonKey).map (bsuf A B)

/-- The rows of `l` whose key is `k`. -/
def rowsWithKey (k : Cell × Cell) : List Row → List Row
  | [] => []
  | r :: rs => if keyOf r = k then r :: rowsWithKey k rs else rowsWithKey k rs

/-- Number of rows of `l` whose key is `k`. -/
def countKey (k : Cell × Cell) : List Row → Nat
  | [] => 0
  | r :: rs => (if keyOf r = k then 1 else 0) + countKey k rs

/-- Occurrences of a key value in a list of keys. -/
def countVal (k : Cell × Cell) : List (Cell × Cell) → Nat
  | [] => 0
  | x :: xs => (if x = k then 1 else 0) + countVal k xs

/-- Concatenation of blocks of rows. -/
def concatRows : List (List Row) → List Row
  | [] => []
  | l :: ls => l ++ concatRows ls

/-- Merge-result rows produced by one left row `ra`: one joined row per
matching right row, or a single half-null row if nothing matches. -/
def emitA (A B : DataFrame) (ra : Row) : List Row :=
  if (rowsWithKey (keyOf ra) B.rows).isEmpty then [joinRows A B ra nullRow]
  else (rowsWithKey (keyOf ra) B.rows).map (fun rb => joinRows A B ra rb)

/-- Does the right row have no key match in the left frame? -/
def noMatchInA (A : DataFrame) (rb : Row) : Bool :=
  (rowsWithKey (keyOf rb) A.rows).isEmpty

/-- Merge-result rows for the unmatched right rows. -/
def bOnlyRows (A B : DataFrame) : List Row :=
  (B.rows.filter (noMatchInA A)).map (fun rb => joinRows A B (projKeys rb) rb)

/-- Rows of `pd.merge(A, B, on = key columns, how = "outer")`: each left row
cross-joined with its key matches (or kept alone, null-filled, if unmatched),
followed by the unmatched right rows.  The row multiset is the standard full
outer join; pandas only differs in ordering, which no claim depends on. -/
def outerMergeRows (A B : DataFrame) : List Row :=
  concatRows (A.rows.map (emitA A B)) ++ bOnlyRows A B

/-- Errors surfaced by the pipeline, mirroring the Python exceptions:
pandas `KeyError`, the GUI's explicit `ValueError`s, and the `NameError`
raised by the GUI's column-reorder statement. -/
inductive Err where
  | keyError : String → Err
  | valueError : String → Err
  | nameError : String → Err
deriving DecidableEq

/-- Model of `pd.merge(A, B, on = key columns, how = "outer")`.  The merge raises a
`KeyError` when a key column is missing from either frame, and refuses result
label collisions that the `_x` and `_y` suffixes fail to disambiguate (pandas
raises on such duplicate result labels); otherwise it returns the outer-join
frame. -/
def pdMerge (A B : DataFrame) : Except Err DataFrame :=
  if ("First names" ∈ A.cols ∧ "Surname" ∈ A.cols ∧ "First names" ∈ B.cols ∧ "Surname" ∈ B.cols)
  then
    if (outerMergeCols A B).Nodup
    then Except.ok (DataFrame.mk (outerMergeCols A B) (outerMergeRows A B))
    else Except.error (Err.valueError "merge produced duplicate column labels")
  else Except.error (Err.keyError "merge key not found")

/-- One row of `fillna`: replace a `null` value in the entries
labelled `c` by `v`. -/
def fillEntry (c : String) (v : Cell) (r : Row) : Row :=
  r.map (fun p => if p.1 = c ∧ p.2 = Cell.null then (p.1, v) else p)

/-- Column fill `df[c] = df[c].fillna(v)`: a `KeyError` if the column is absent, else
replace the column's nulls by `v`. -/
def fillnaCol (f : DataFrame) (c : String) (v : Cell) : Except Err DataFrame :=
  if c ∈ f.cols then Except.ok (DataFrame.mk f.cols (f.rows.map (fillEntry c v)))
  else Except.error (Err.keyError c)

/-- The loaded LoveAdmin frame after standardisation: rename the name columns,
then `loveadmin_data["In_LoveAdmin"] = True`. -/
def prepA (A : DataFrame) : DataFrame :=
  setCol (renameFrame A) "In_LoveAdmin" (Cell.bool true)

/-- The loaded FA Club Portal frame after
`fa_club_portal_data["In_FA_Club_Portal"] = True`. -/
def prepB (B : DataFrame) : DataFrame :=
  setCol B "In_FA_Club_Portal" (Cell.bool true)

/-- Both fill steps applied to one merged row (`In_LoveAdmin` first, then
`In_FA_Club_Portal`, in source order). -/
def fill2 (r : Row) : Row :=
  fillEntry "In_FA_Club_Portal" (Cell.bool false) (fillEntry "In_LoveAdmin" (Cell.bool false) r)

/-- The frame-level core shared verbatim by both scripts: rename, add the two
presence flags, outer-merge on the name pair, and fill the missing flags with
`False`. -/
def mergedFilled (A B : DataFrame) : Except Err DataFrame :=
  match pdMerge (prepA A) (prepB B) with
  | Except.error e => Except.error e
  | Except.ok m =>
    match fillnaCol m "In_LoveAdmin" (Cell.bool false) with
    | Except.error e => Except.error e
    | Except.ok m1 => fillnaCol m1 "In_FA_Club_Portal" (Cell.bool false)

/-- A raw spreadsheet file: the grid of cell values, before any header
interpretation. -/
abbrev Raw := List (List Cell)

/-- Column label built from a header cell; labels are text in the files this
tool reads. -/
def cellName : Cell → String
  | Cell.str s => s
  | _ => ""

/-- Align one data line with the header labels, null-padding a short line as
pandas does. -/
def mkRow : List String → List Cell → Row
  | [], _ => []
  | c :: cs, [] => (c, Cell.null) :: mkRow cs []
  | c :: cs, v :: vs => (c, v) :: mkRow cs vs

/-- Model of `pd.read_excel(path, skiprows = n)`: drop the first `n` lines, read the
next line as the header, and the remaining lines as the rows. -/
def read_excel (raw : Raw) (skiprows : Nat) : DataFrame :=
  match raw.drop skiprows with
  | [] => DataFrame.mk [] []
  | hdr :: body => DataFrame.mk (hdr.map cellName) (body.map (mkRow (hdr.map cellName)))

/-- Observable effects of one run: reading the two inputs, writing the output
file, and the GUI's dialogs. -/
inductive Effect where
  | readA : Effect
  | readB : Effect
  | writeOut : DataFrame → Effect
  | errorDialog : String → Effect
  | infoDialog : String → Effect
deriving DecidableEq

/-- The CLI entry `merge_datasets(loveadmin_path, fa_club_portal_path,
output_path)`: load A (header on line 1), load B (`skiprows=6`, hardcoded),
run the shared core, and only then write the output (`to_excel`, no index).
Returns the effect trace and the propagated outcome (the `except` clause logs
and re-raises). -/
def merge_datasets (rawA rawB : Raw) : List Effect × Except Err Unit :=
  match mergedFilled (read_excel rawA 0) (read_excel rawB 6) with
  | Except.ok m => ([Effect.readA, Effect.readB, Effect.writeOut m], Except.ok ())
  | Except.error e => ([Effect.readA, Effect.readB], Except.error e)

/-- Message text carried by an error. -/
def errText : Err → String
  | Err.keyError s => s
  | Err.valueError s => s
  | Err.nameError s => s

/-- The GUI's try-block after loading the two frames: the two explicit schema
checks, then the shared core, then the column reorder.  The reorder statement
in the source builds `columns_order` with a list comprehension that mentions
`columns_order` itself before the assignment completes; Python raises
`NameError` there on every execution, so the reorder (and everything after it,
including the write) is unreachable. -/
def guiCore (A B : DataFrame) : Except Err DataFrame :=
  if ("Last name" ∈ A.cols ∧ "First name" ∈ A.cols) then
    if ("First names" ∈ B.cols ∧ "Surname" ∈ B.cols) then
      match mergedFilled A B with
      | Except.error e => Except.error e
      | Except.ok _ => Except.error (Err.nameError "name columns_order is not defined")
    else Except.error (Err.valueError "FA Club Portal file does not contain required columns: First names, Surname.")
  else Except.error (Err.valueError "LoveAdmin file does not contain required columns: Last name, First name.")

/-- The GUI handler `validate_and_merge`: reject empty path fields with an
error dialog before touching any file; otherwise load both inputs, run the
try-block, and either write the output and show the success dialog or show the
error dialog. -/
def validate_and_merge (pA pB pOut : String) (rawA rawB : Raw) : List Effect :=
  if (pA = "" ∨ pB = "" ∨ pOut = "") then
    [Effect.errorDialog "Please select all required files."]
  else
    match guiCore (read_excel rawA 0) (read_excel rawB 6) with
    | Except.ok m =>
        [Effect.readA, Effect.readB, Effect.writeOut m,
         Effect.infoDialog "Merge completed successfully."]
    | Except.error e =>
        [Effect.readA, Effect.readB, Effect.errorDialog ("An error occurred: " ++ errText e)]

/-- Modelled from the spec: the section 4.1 contract
`reconcile(sourceA_path, sourceB_path, output_path, header_skip_rows = 6)` -
the same load, rename, flag, outer-join and fill pipeline, with the source-B
header skip exposed as the `header_skip_rows` argument.  The source hardcodes
the skip count instead of exposing it. -/
def reconcile_spec (rawA rawB : Raw) (header_skip_rows : Nat) : Except Err DataFrame :=
  mergedFilled (read_excel rawA 0) (read_excel rawB header_skip_rows)

/-- The outer-join multiplicity of a key occurring `m` times on the left and
`n` times on the right. -/
def outerMult (m n : Nat) : Nat := if m = 0 then n else if n = 0 then m else m * n

/-- The frame of a successful outcome (dummy empty frame otherwise). -/
def okFrame (e : Except Err DataFrame) : DataFrame :=
  match e with
  | Except.ok f => f
  | Except.error _ => DataFrame.mk [] []

/-- Did the pipeline succeed? -/
def isOkB (e : Except Err DataFrame) : Bool :=
  match e with
  | Except.ok _ => true
  | Except.error _ => false

/-- Did the run succeed? -/
def isOkU (e : Except Err Unit) : Bool :=
  match e with
  | Except.ok _ => true
  | Except.error _ => false

/-- Does the effect trace contain a write of the output file? -/
def hasWrite (es : List Effect) : Bool :=
  es.any (fun e => match e with | Effect.writeOut _ => true | _ => false)

/-! Concrete tables used to witness the theorems below. -/

/-- A small LoveAdmin-shaped table already carrying the standard names. -/
def exA : DataFrame :=
  DataFrame.mk ["First names", "Surname", "Team"]
    [[("First names", Cell.str "Jo"), ("Surname", Cell.str "Lee"), ("Team", Cell.str "U7")]]

/-- A small FA-Club-Portal-shaped table with the same single key. -/
def exB : DataFrame :=
  DataFrame.mk ["First names", "Surname", "Active mandates"]
    [[("First names", Cell.str "Jo"), ("Surname", Cell.str "Lee"), ("Active mandates", Cell.str "1")]]

/-- The key shared by `exA` and `exB`. -/
def exK : Cell × Cell := (Cell.str "Jo", Cell.str "Lee")

/-- A table with distinct keys, merged with itself in the round-trip witness. -/
def exA8 : DataFrame :=
  DataFrame.mk ["First names", "Surname"]
    [[("First names", Cell.str "Jo"), ("Surname", Cell.str "Lee")],
     [("First names", Cell.str "Sam"), ("Surname", Cell.str "Fox")]]

/-- A table with a duplicated key: self-merge cross-multiplies it. -/
def exA8dup : DataFrame :=
  DataFrame.mk ["First names", "Surname"]
    [[("First names", Cell.str "Jo"), ("Surname", Cell.str "Lee")],
     [("First names", Cell.str "Jo"), ("Surname", Cell.str "Lee")]]

/-- A raw source-A file lacking "Last name" and "First name" but carrying the
join keys directly. -/
def exRawAnoLN : Raw :=
  [[Cell.str "First names", Cell.str "Surname"], [Cell.str "Jo", Cell.str "Lee"]]

/-- A raw source-B file: six skipped lines, then the header, then one row. -/
def exRawB : Raw :=
  [[], [], [], [], [], [],
   [Cell.str "First names", Cell.str "Surname", Cell.str "Active mandates"],
   [Cell.str "Jo", Cell.str "Lee", Cell.str "1"]]

/-- A LoveAdmin table in its on-file shape, for the GUI reorder-bug theorem. -/
def exA3 : DataFrame :=
  DataFrame.mk ["Last name", "First name"]
    [[("Last name", Cell.str "Lee"), ("First name", Cell.str "Jo")]]

/-- An FA table for the GUI reorder-bug theorem. -/
def exB3 : DataFrame :=
  DataFrame.mk ["First names", "Surname"]
    [[("First names", Cell.str "Jo"), ("Surname", Cell.str "Lee")]]

/-- The merged output of the small example pair. -/
def exOut : DataFrame := okFrame (mergedFilled exA exB)

/-- The first row of that output. -/
def exRow4 : Row := exOut.rows.headD []

/-- A LoveAdmin-shaped frame that lacks "Last name" and "First name". -/
def exAnoLN : DataFrame :=
  DataFrame.mk ["First names", "Surname"]
    [[("First names", Cell.str "Jo"), ("Surname", Cell.str "Lee")]]

/-- The first output row of the duplicated-key self-merge. -/
def exRow8dup : Row := (okFrame (mergedFilled exA8dup exA8dup)).rows.headD []

/-- A raw source-B file whose header is on line 1, not line 7: only a skip
count of 0 reads it correctly, and no argument of the CLI entry selects one. -/
def exRawB9 : Raw :=
  [[Cell.str "First names", Cell.str "Surname"], [Cell.str "Jo", Cell.str "Lee"]]

/-! Basic lemmas about row access. -/

theorem getCell_append (r₁ r₂ : Row) (c : String) :
    getCell (r₁ ++ r₂) c = if hasCol r₁ c then getCell r₁ c else getCell r₂ c := by
  induction r₁ with
  | nil => simp [getCell, hasCol]
  | cons p r ih => by_cases h : p.1 = c <;> simp [getCell, hasCol, h, ih]

theorem hasCol_append (r₁ r₂ : Row) (c : String) :
    hasCol (r₁ ++ r₂) c = (hasCol r₁ c || hasCol r₂ c) := by
  induction r₁ with
  | nil => simp [hasCol]
  | cons p r ih => by_cases h : p.1 = c <;> simp [hasCol, h, ih]

theorem getCell_of_hasCol_eq_false (r : Row) (c : String) (h : hasCol r c = false) :
    getCell r c = Cell.null := by
  induction r with
  | nil => rfl
  | cons p r ih =>
    by_cases hp : p.1 = c
    · simp [hasCol, hp] at h
    · simp only [hasCol, hp, if_false] at h
      simp [getCell, hp, ih h]

theorem getCell_mapCols (cs : List String) (g : String → String) (v : String → Cell)
    (c : String) (h : ∀ x ∈ cs, g x = c ↔ x = c) :
    getCell (cs.map (fun x => (g x, v x))) c = if c ∈ cs then v c else Cell.null := by
  induction cs with
  | nil => simp [getCell]
  | cons a cs ih =>
    have ha := h a (by simp)
    by_cases hg : g a = c
    · have hac : a = c := ha.mp hg
      subst hac
      simp [getCell, hg]
    · have hac : ¬ a = c := fun hh => hg (ha.mpr hh)
      have hca : ¬ c = a := fun hh => hac hh.symm
      simp [getCell, hg, hca, ih (fun x hx => h x (by simp [hx]))]

theorem getCell_mapCols_inj (cs : List String) (g : String → String) (v : String → Cell)
    (c₀ : String) (h₀ : c₀ ∈ cs) (hinj : ∀ x ∈ cs, ∀ y ∈ cs, g x = g y → x = y) :
    getCell (cs.map (fun x => (g x, v x))) (g c₀) = v c₀ := by
  induction cs with
  | nil => cases h₀
  | cons a cs ih =>
    by_cases hg : g a = g c₀
    · have : a = c₀ := hinj a (by simp) c₀ h₀ hg
      subst this
      simp [getCell]
    · have hne : c₀ ≠ a := fun hh => hg (by rw [hh])
      have h₀' : c₀ ∈ cs := by
        cases List.mem_cons.mp h₀ with
        | inl h => exact absurd h hne
        | inr h => exact h
      simp only [List.map_cons, getCell, hg, if_false]
      exact ih h₀' (fun x hx y hy hxy => hinj x (by simp [hx]) y (by simp [hy]) hxy)

theorem hasCol_mapCols (cs : List String) (g : String → String) (v : String → Cell) (c : String) :
    hasCol (cs.map (fun x => (g x, v x))) c = cs.any (fun x => decide (g x = c)) := by
  induction cs with
  | nil => rfl
  | cons a cs ih => by_cases h : g a = c <;> simp [hasCol, h, ih]

theorem getCell_allNull (r : Row) (h : ∀ p ∈ r, p.2 = Cell.null) (c : String) :
    getCell r c = Cell.null := by
  induction r with
  | nil => rfl
  | cons p r ih =>
    by_cases hp : p.1 = c
    · simp [getCell, hp, h p (by simp)]
    · simp only [getCell, hp, if_false]
      exact ih (fun q hq => h q (by simp [hq]))

theorem setEntry_cons (c : String) (v : Cell) (p : String × Cell) (r : Row) :
    setEntry c v (p :: r) = (if p.1 = c then (p.1, v) else p) :: setEntry c v r := rfl

theorem fillEntry_cons (c : String) (v : Cell) (p : String × Cell) (r : Row) :
    fillEntry c v (p :: r) =
      (if p.1 = c ∧ p.2 = Cell.null then (p.1, v) else p) :: fillEntry c v r := rfl

theorem renameRow_cons (p : String × Cell) (r : Row) :
    renameRow (p :: r) = (stdRename p.1, p.2) :: renameRow r := rfl

theorem getCell_setEntry_self (c : String) (v : Cell) (r : Row) :
    getCell (setEntry c v r) c = if hasCol r c then v else Cell.null := by
  induction r with
  | nil => rfl
  | cons p r ih =>
    rw [setEntry_cons]
    by_cases hp : p.1 = c
    · simp [getCell, hasCol, hp]
    · simp only [hp, if_false, getCell, hasCol]
      exact ih

theorem getCell_setEntry_ne (c c' : String) (v : Cell) (r : Row) (h : c' ≠ c) :
    getCell (setEntry c v r) c' = getCell r c' := by
  induction r with
  | nil => rfl
  | cons p r ih =>
    rw [setEntry_cons]
    by_cases hp : p.1 = c
    · have hp' : ¬ p.1 = c' := by rw [hp]; exact fun hh => h hh.symm
      rw [if_pos hp]
      show (if p.1 = c' then v else getCell (setEntry c v r) c')
        = (if p.1 = c' then p.2 else getCell r c')
      rw [if_neg hp', if_neg hp', ih]
    · rw [if_neg hp]
      show (if p.1 = c' then p.2 else getCell (setEntry c v r) c')
        = (if p.1 = c' then p.2 else getCell r c')
      rw [ih]

theorem getCell_fillEntry_ne (c c' : String) (v : Cell) (r : Row) (h : c' ≠ c) :
    getCell (fillEntry c v r) c' = getCell r c' := by
  induction r with
  | nil => rfl
  | cons p r ih =>
    rw [fillEntry_cons]
    by_cases hp : p.1 = c ∧ p.2 = Cell.null
    · have hp' : ¬ p.1 = c' := by rw [hp.1]; exact fun hh => h hh.symm
      rw [if_pos hp]
      show (if p.1 = c' then v else getCell (fillEntry c v r) c')
        = (if p.1 = c' then p.2 else getCell r c')
      rw [if_neg hp', if_neg hp', ih]
    · rw [if_neg hp]
      show (if p.1 = c' then p.2 else getCell (fillEntry c v r) c')
        = (if p.1 = c' then p.2 else getCell r c')
      rw [ih]

theorem getCell_fillEntry_self (c : String) (v : Cell) (r : Row) :
    getCell (fillEntry c v r) c =
      if getCell r c = Cell.null then (if hasCol r c then v else Cell.null)
      else getCell r c := by
  induction r with
  | nil => rfl
  | cons p r ih =>
    rw [fillEntry_cons]
    by_cases hp : p.1 = c
    · by_cases hn : p.2 = Cell.null
      · simp [getCell, hasCol, hp, hn]
      · simp [getCell, hasCol, hp, hn]
    · simp only [hp, false_and, if_false, getCell, hasCol, ih]

theorem hasCol_fillEntry (c c' : String) (v : Cell) (r : Row) :
    hasCol (fillEntry c v r) c' = hasCol r c' := by
  induction r with
  | nil => rfl
  | cons p r ih =>
    rw [fillEntry_cons]
    have hfst : (if p.1 = c ∧ p.2 = Cell.null then (p.1, v) else p).1 = p.1 := by
      by_cases hp : p.1 = c ∧ p.2 = Cell.null <;> simp [hp]
    show (if (if p.1 = c ∧ p.2 = Cell.null then (p.1, v) else p).1 = c' then true
          else hasCol (fillEntry c v r) c')
        = (if p.1 = c' then true else hasCol r c')
    rw [hfst, ih]

theorem fsts_setEntry (c : String) (v : Cell) (r : Row) :
    (setEntry c v r).map Prod.fst = r.map Prod.fst := by
  induction r with
  | nil => rfl
  | cons p r ih =>
    rw [setEntry_cons]
    by_cases hp : p.1 = c <;> simp [hp, ih]

theorem fsts_fillEntry (c : String) (v : Cell) (r : Row) :
    (fillEntry c v r).map Prod.fst = r.map Prod.fst := by
  induction r with
  | nil => rfl
  | cons p r ih =>
    rw [fillEntry_cons]
    by_cases hp : p.1 = c ∧ p.2 = Cell.null <;> simp [hp, ih]

theorem fsts_renameRow (r : Row) :
    (renameRow r).map Prod.fst = (r.map Prod.fst).map stdRename := by
  induction r with
  | nil => rfl
  | cons p r ih =>
    rw [renameRow_cons]
    simp [ih]

theorem getCell_renameRow (r : Row) (t : String)
    (h : ∀ p ∈ r, stdRename p.1 = t ↔ p.1 = t) :
    getCell (renameRow r) t = getCell r t := by
  induction r with
  | nil => rfl
  | cons p r ih =>
    have hp := h p (by simp)
    rw [renameRow_cons]
    by_cases hg : stdRename p.1 = t
    · have hpt : p.1 = t := hp.mp hg
      show (if stdRename p.1 = t then p.2 else getCell (renameRow r) t)
        = (if p.1 = t then p.2 else getCell r t)
      rw [if_pos hg, if_pos hpt]
    · have hne : ¬ p.1 = t := fun hh => hg (hp.mpr hh)
      simp only [getCell, hg, hne, if_false]
      exact ih (fun q hq => h q (by simp [hq]))

/-! Suffix labels never collide with the fixed column names: a string ending
in the merge suffix differs from any label whose last character is not the
suffix character. -/

theorem append_ne_of_rev_head (y sfx t : String) (a : Char)
    (hs : sfx.data.reverse.head? = some a) (ht : t.data.reverse.head? ≠ some a) :
    y ++ sfx ≠ t := by
  intro h
  apply ht
  have hd : t.data = y.data ++ sfx.data := by rw [← h, String.data_append]
  cases hrev : sfx.data.reverse with
  | nil => rw [hrev] at hs; simp at hs
  | cons a' la =>
    rw [hrev] at hs
    simp at hs
    subst hs
    rw [hd, List.reverse_append, hrev]
    simp

theorem append_x_ne (y t : String) (ht : t.data.reverse.head? ≠ some 'x') :
    y ++ "_x" ≠ t :=
  append_ne_of_rev_head y "_x" t 'x' rfl ht

theorem append_y_ne (y t : String) (ht : t.data.reverse.head? ≠ some 'y') :
    y ++ "_y" ≠ t :=
  append_ne_of_rev_head y "_y" t 'y' rfl ht

/-! Lemmas about the merge result labels. -/

theorem asuf_eq_imp (A B : DataFrame) (t : String)
    (hx : t.data.reverse.head? ≠ some 'x') :
    ∀ x, asuf A B x = t → x = t := by
  intro x h
  unfold asuf at h
  by_cases h1 : x ∈ keyCols
  · simpa [h1] using h
  · by_cases h2 : x ∈ B.cols
    · rw [if_neg h1, if_pos h2] at h
      exact absurd h (append_x_ne x t hx)
    · simpa [h1, h2] using h

theorem bsuf_eq_imp (A B : DataFrame) (t : String)
    (hy : t.data.reverse.head? ≠ some 'y') :
    ∀ x, bsuf A B x = t → x = t := by
  intro x h
  unfold bsuf at h
  by_cases h1 : x ∈ keyCols
  · simpa [h1] using h
  · by_cases h2 : x ∈ A.cols
    · rw [if_neg h1, if_pos h2] at h
      exact absurd h (append_y_ne x t hy)
    · simpa [h1, h2] using h

theorem asuf_fixed (A B : DataFrame) (t : String) (h : t ∈ keyCols ∨ ¬ t ∈ B.cols) :
    asuf A B t = t := by
  unfold asuf
  cases h with
  | inl h => simp [h]
  | inr h => by_cases h1 : t ∈ keyCols <;> simp [h1, h]

theorem bsuf_fixed (A B : DataFrame) (t : String) (h : t ∈ keyCols ∨ ¬ t ∈ A.cols) :
    bsuf A B t = t := by
  unfold bsuf
  cases h with
  | inl h => simp [h]
  | inr h => by_cases h1 : t ∈ keyCols <;> simp [h1, h]

theorem asuf_eq_iff (A B : DataFrame) (t : String)
    (hx : t.data.reverse.head? ≠ some 'x') (hfix : t ∈ keyCols ∨ ¬ t ∈ B.cols) :
    ∀ x, asuf A B x = t ↔ x = t :=
  fun x => ⟨asuf_eq_imp A B t hx x, fun h => h ▸ asuf_fixed A B t hfix⟩

theorem bsuf_eq_iff (A B : DataFrame) (t : String)
    (hy : t.data.reverse.head? ≠ some 'y') (hfix : t ∈ keyCols ∨ ¬ t ∈ A.cols) :
    ∀ x, bsuf A B x = t ↔ x = t :=
  fun x => ⟨bsuf_eq_imp A B t hy x, fun h => h ▸ bsuf_fixed A B t hfix⟩

/-! Access lemmas for the merged rows. -/

theorem fsts_joinRows (A B : DataFrame) (ra rb : Row) :
    (joinRows A B ra rb).map Prod.fst = outerMergeCols A B := by
  simp only [joinRows, outerMergeCols, List.map_append, List.map_map]
  rfl

theorem getCell_joinRows_left (A B : DataFrame) (ra rb : Row) (t : String)
    (hx : t.data.reverse.head? ≠ some 'x') (hfix : t ∈ keyCols ∨ ¬ t ∈ B.cols)
    (hA : t ∈ A.cols) :
    getCell (joinRows A B ra rb) t = getCell ra t := by
  unfold joinRows
  rw [getCell_append]
  have hhas : hasCol (A.cols.map (fun c => (asuf A B c, getCell ra c))) t = true := by
    rw [hasCol_mapCols, List.any_eq_true]
    exact ⟨t, hA, by rw [asuf_fixed A B t hfix]; simp⟩
  rw [hhas, if_pos rfl,
    getCell_mapCols _ _ _ _ (fun x _ => asuf_eq_iff A B t hx hfix x), if_pos hA]

theorem keyOf_joinRows (A B : DataFrame) (ra rb : Row)
    (hFN : "First names" ∈ A.cols) (hSN : "Surname" ∈ A.cols) :
    keyOf (joinRows A B ra rb) = keyOf ra := by
  unfold keyOf
  rw [getCell_joinRows_left A B ra rb "First names" (by decide) (Or.inl (by decide)) hFN,
    getCell_joinRows_left A B ra rb "Surname" (by decide) (Or.inl (by decide)) hSN]

theorem keyOf_projKeys (rb : Row) : keyOf (projKeys rb) = keyOf rb := by
  unfold keyOf projKeys
  rw [show getCell [("First names", getCell rb "First names"),
        ("Surname", getCell rb "Surname")] "First names" = getCell rb "First names" by
      simp [getCell]]
  rw [show getCell [("First names", getCell rb "First names"),
        ("Surname", getCell rb "Surname")] "Surname" = getCell rb "Surname" by
      simp [getCell]]

theorem getCell_joinRows_right (A B : DataFrame) (ra rb : Row) (t : String)
    (hx : t.data.reverse.head? ≠ some 'x') (hy : t.data.reverse.head? ≠ some 'y')
    (htk : ¬ t ∈ keyCols) (hB : t ∈ B.cols) (hA : ¬ t ∈ A.cols) :
    getCell (joinRows A B ra rb) t = getCell rb t := by
  unfold joinRows
  rw [getCell_append]
  have hnone : hasCol (A.cols.map (fun c => (asuf A B c, getCell ra c))) t = false := by
    rw [hasCol_mapCols]
    rw [List.any_eq_false]
    intro x hxA
    simp only [decide_eq_true_eq]
    intro hax
    exact hA ((asuf_eq_imp A B t hx x hax) ▸ hxA)
  rw [hnone]
  rw [if_neg (by simp)]
  have hmemf : t ∈ B.cols.filter nonKey := by
    rw [List.mem_filter]
    exact ⟨hB, by simp [nonKey, htk]⟩
  rw [getCell_mapCols _ _ _ _ (fun x _ => bsuf_eq_iff A B t hy (Or.inr hA) x), if_pos hmemf]

theorem hasCol_joinRows_left (A B : DataFrame) (ra rb : Row) (t : String)
    (hfix : t ∈ keyCols ∨ ¬ t ∈ B.cols) (hA : t ∈ A.cols) :
    hasCol (joinRows A B ra rb) t = true := by
  unfold joinRows
  rw [hasCol_append]
  have hhas : hasCol (A.cols.map (fun c => (asuf A B c, getCell ra c))) t = true := by
    rw [hasCol_mapCols, List.any_eq_true]
    exact ⟨t, hA, by rw [asuf_fixed A B t hfix]; simp⟩
  rw [hhas]
  rfl

theorem hasCol_joinRows_right (A B : DataFrame) (ra rb : Row) (t : String)
    (htk : ¬ t ∈ keyCols) (hB : t ∈ B.cols) (hA : ¬ t ∈ A.cols) :
    hasCol (joinRows A B ra rb) t = true := by
  unfold joinRows
  rw [hasCol_append]
  have hhas : hasCol ((B.cols.filter nonKey).map (fun c => (bsuf A B c, getCell rb c))) t
      = true := by
    rw [hasCol_mapCols, List.any_eq_true]
    refine ⟨t, ?_, by rw [bsuf_fixed A B t (Or.inr hA)]; simp⟩
    rw [List.mem_filter]
    exact ⟨hB, by simp [nonKey, htk]⟩
  rw [hhas, Bool.or_true]

/-! Counting machinery for the outer join. -/

theorem countKey_append (k : Cell × Cell) (l₁ l₂ : List Row) :
    countKey k (l₁ ++ l₂) = countKey k l₁ + countKey k l₂ := by
  induction l₁ with
  | nil => simp [countKey]
  | cons r rs ih =>
    rw [List.cons_append, countKey, countKey, ih, Nat.add_assoc]

theorem length_rowsWithKey (k : Cell × Cell) (l : List Row) :
    (rowsWithKey k l).length = countKey k l := by
  induction l with
  | nil => rfl
  | cons r rs ih =>
    by_cases h : keyOf r = k <;> simp [rowsWithKey, countKey, h, ih, Nat.add_comm]

theorem mem_rowsWithKey (k : Cell × Cell) (l : List Row) (x : Row) :
    x ∈ rowsWithKey k l ↔ x ∈ l ∧ keyOf x = k := by
  induction l with
  | nil => simp [rowsWithKey]
  | cons r rs ih =>
    by_cases h : keyOf r = k
    · rw [rowsWithKey, if_pos h]
      simp only [List.mem_cons, ih]
      constructor
      · rintro (rfl | ⟨h1, h2⟩)
        · exact ⟨Or.inl rfl, h⟩
        · exact ⟨Or.inr h1, h2⟩
      · rintro ⟨h1 | h1, h2⟩
        · exact Or.inl h1
        · exact Or.inr ⟨h1, h2⟩
    · rw [rowsWithKey, if_neg h, ih]
      constructor
      · rintro ⟨h1, h2⟩
        exact ⟨List.mem_cons_of_mem _ h1, h2⟩
      · rintro ⟨h1, h2⟩
        cases List.mem_cons.mp h1 with
        | inl he => subst he; exact absurd h2 h
        | inr he => exact ⟨he, h2⟩

theorem isEmpty_rowsWithKey (k : Cell × Cell) (l : List Row) :
    (rowsWithKey k l).isEmpty = true ↔ countKey k l = 0 := by
  rw [List.isEmpty_iff]
  constructor
  · intro h
    have hlen := length_rowsWithKey k l
    rw [h] at hlen
    simpa using hlen.symm
  · intro h
    have hlen := length_rowsWithKey k l
    rw [h] at hlen
    exact List.length_eq_zero.mp hlen

theorem mem_concatRows (ls : List (List Row)) (x : Row) :
    x ∈ concatRows ls ↔ ∃ l ∈ ls, x ∈ l := by
  induction ls with
  | nil => simp [concatRows]
  | cons l ls ih => simp [concatRows, ih]

theorem countKey_const (k c : Cell × Cell) (l : List Row) (h : ∀ r ∈ l, keyOf r = c) :
    countKey k l = if c = k then l.length else 0 := by
  induction l with
  | nil => simp [countKey]
  | cons r rs ih =>
    rw [countKey, h r (by simp), ih (fun q hq => h q (by simp [hq]))]
    by_cases hck : c = k <;> simp [hck, Nat.add_comm]

theorem countKey_map_preserving (k : Cell × Cell) (f : Row → Row) (l : List Row)
    (h : ∀ r ∈ l, keyOf (f r) = keyOf r) :
    countKey k (l.map f) = countKey k l := by
  induction l with
  | nil => rfl
  | cons r rs ih =>
    rw [List.map_cons, countKey, countKey, h r (by simp),
      ih (fun q hq => h q (by simp [hq]))]

theorem rowsWithKey_map_preserving (k : Cell × Cell) (f : Row → Row) (l : List Row)
    (h : ∀ r ∈ l, keyOf (f r) = keyOf r) :
    rowsWithKey k (l.map f) = (rowsWithKey k l).map f := by
  induction l with
  | nil => rfl
  | cons r rs ih =>
    rw [List.map_cons, rowsWithKey, rowsWithKey, h r (by simp)]
    by_cases hk : keyOf r = k
    · rw [if_pos hk, if_pos hk, List.map_cons, ih (fun q hq => h q (by simp [hq]))]
    · rw [if_neg hk, if_neg hk, ih (fun q hq => h q (by simp [hq]))]

theorem countKey_emitA (A B : DataFrame) (ra : Row) (k : Cell × Cell)
    (hFN : "First names" ∈ A.cols) (hSN : "Surname" ∈ A.cols) :
    countKey k (emitA A B ra) =
      if keyOf ra = k then (if countKey k B.rows = 0 then 1 else countKey k B.rows)
      else 0 := by
  unfold emitA
  by_cases hE : (rowsWithKey (keyOf ra) B.rows).isEmpty = true
  · rw [if_pos hE]
    have hn : countKey (keyOf ra) B.rows = 0 := (isEmpty_rowsWithKey _ _).mp hE
    rw [countKey_const k (keyOf ra) _
      (fun r hr => by
        rw [List.mem_singleton.mp hr]
        exact keyOf_joinRows A B ra nullRow hFN hSN)]
    by_cases hk : keyOf ra = k
    · subst hk
      rw [if_pos rfl, if_pos rfl, if_pos hn]
      rfl
    · rw [if_neg hk, if_neg hk]
  · rw [if_neg hE]
    have hn : ¬ countKey (keyOf ra) B.rows = 0 :=
      fun h0 => hE ((isEmpty_rowsWithKey _ _).mpr h0)
    rw [countKey_const k (keyOf ra) _
      (fun r hr => by
        rcases List.mem_map.mp hr with ⟨rb, _, rfl⟩
        exact keyOf_joinRows A B ra rb hFN hSN)]
    by_cases hk : keyOf ra = k
    · subst hk
      rw [if_pos rfl, if_pos rfl, if_neg hn, List.length_map, length_rowsWithKey]
    · rw [if_neg hk, if_neg hk]

theorem countKey_concat_emitA (A B : DataFrame) (k : Cell × Cell)
    (hFN : "First names" ∈ A.cols) (hSN : "Surname" ∈ A.cols) (la : List Row) :
    countKey k (concatRows (la.map (emitA A B))) =
      countKey k la * (if countKey k B.rows = 0 then 1 else countKey k B.rows) := by
  induction la with
  | nil => simp [concatRows, countKey]
  | cons ra ras ih =>
    rw [List.map_cons,
      show concatRows (emitA A B ra :: List.map (emitA A B) ras)
        = emitA A B ra ++ concatRows (List.map (emitA A B) ras) from rfl,
      countKey_append, ih, countKey_emitA A B ra k hFN hSN, countKey]
    generalize (if countKey k B.rows = 0 then 1 else countKey k B.rows) = E
    by_cases hk : keyOf ra = k
    · rw [if_pos hk, if_pos hk, Nat.add_mul, Nat.one_mul]
    · rw [if_neg hk, if_neg hk, Nat.zero_add, Nat.zero_add]

theorem countKey_filter_all_true (k : Cell × Cell) (q : Row → Bool) (l : List Row)
    (h : ∀ r ∈ l, keyOf r = k → q r = true) :
    countKey k (l.filter q) = countKey k l := by
  induction l with
  | nil => rfl
  | cons r rs ih =>
    by_cases hq : q r = true
    · rw [List.filter_cons_of_pos hq, countKey, countKey,
        ih (fun x hx hk => h x (by simp [hx]) hk)]
    · have hk : ¬ keyOf r = k := fun hh => hq (h r (by simp) hh)
      rw [List.filter_cons_of_neg (by simpa using hq), countKey, if_neg hk,
        ih (fun x hx hkx => h x (by simp [hx]) hkx), Nat.zero_add]

theorem countKey_filter_all_false (k : Cell × Cell) (q : Row → Bool) (l : List Row)
    (h : ∀ r ∈ l, keyOf r = k → q r = false) :
    countKey k (l.filter q) = 0 := by
  induction l with
  | nil => rfl
  | cons r rs ih =>
    by_cases hq : q r = true
    · have hk : ¬ keyOf r = k := fun hh => by rw [h r (by simp) hh] at hq; cases hq
      rw [List.filter_cons_of_pos hq, countKey, if_neg hk,
        ih (fun x hx hkx => h x (by simp [hx]) hkx)]
    · rw [List.filter_cons_of_neg (by simpa using hq),
        ih (fun x hx hkx => h x (by simp [hx]) hkx)]

theorem countKey_bOnlyRows (A B : DataFrame) (k : Cell × Cell)
    (hFN : "First names" ∈ A.cols) (hSN : "Surname" ∈ A.cols) :
    countKey k (bOnlyRows A B) =
      if countKey k A.rows = 0 then countKey k B.rows else 0 := by
  unfold bOnlyRows
  rw [countKey_map_preserving k _ _ (fun rb _ => by
    rw [keyOf_joinRows A B _ rb hFN hSN, keyOf_projKeys])]
  by_cases hm : countKey k A.rows = 0
  · rw [if_pos hm]
    apply countKey_filter_all_true
    intro rb _ hk
    unfold noMatchInA
    rw [hk]
    exact (isEmpty_rowsWithKey k A.rows).mpr hm
  · rw [if_neg hm]
    apply countKey_filter_all_false
    intro rb _ hk
    unfold noMatchInA
    rw [hk]
    cases hE : (rowsWithKey k A.rows).isEmpty
    · rfl
    · exact absurd ((isEmpty_rowsWithKey k A.rows).mp hE) hm

theorem countKey_outerMergeRows (A B : DataFrame) (k : Cell × Cell)
    (hFN : "First names" ∈ A.cols) (hSN : "Surname" ∈ A.cols) :
    countKey k (outerMergeRows A B) = outerMult (countKey k A.rows) (countKey k B.rows) := by
  unfold outerMergeRows outerMult
  rw [countKey_append, countKey_concat_emitA A B k hFN hSN, countKey_bOnlyRows A B k hFN hSN]
  by_cases hm : countKey k A.rows = 0
  · rw [hm]
    simp
  · rw [if_neg hm, if_neg hm]
    by_cases hn : countKey k B.rows = 0
    · rw [if_pos hn, if_pos hn, Nat.mul_one, Nat.add_zero]
    · rw [if_neg hn, if_neg hn, Nat.add_zero]

/-! Membership in the outer-join rows. -/

theorem mem_outerMergeRows (A B : DataFrame) (x : Row) (h : x ∈ outerMergeRows A B) :
    (∃ ra ∈ A.rows, ∃ rb ∈ B.rows, keyOf rb = keyOf ra ∧ x = joinRows A B ra rb) ∨
    (∃ ra ∈ A.rows, countKey (keyOf ra) B.rows = 0 ∧ x = joinRows A B ra nullRow) ∨
    (∃ rb ∈ B.rows, countKey (keyOf rb) A.rows = 0 ∧ x = joinRows A B (projKeys rb) rb) := by
  unfold outerMergeRows at h
  rcases List.mem_append.mp h with h | h
  · rcases (mem_concatRows _ x).mp h with ⟨l, hl, hx⟩
    rcases List.mem_map.mp hl with ⟨ra, hra, rfl⟩
    unfold emitA at hx
    by_cases hE : (rowsWithKey (keyOf ra) B.rows).isEmpty = true
    · rw [if_pos hE] at hx
      rcases List.mem_singleton.mp hx with rfl
      exact Or.inr (Or.inl ⟨ra, hra, (isEmpty_rowsWithKey _ _).mp hE, rfl⟩)
    · rw [if_neg hE] at hx
      rcases List.mem_map.mp hx with ⟨rb, hrb, rfl⟩
      rcases (mem_rowsWithKey _ _ _).mp hrb with ⟨hrbB, hkb⟩
      exact Or.inl ⟨ra, hra, rb, hrbB, hkb, rfl⟩
  · unfold bOnlyRows at h
    rcases List.mem_map.mp h with ⟨rb, hrb, rfl⟩
    rcases List.mem_filter.mp hrb with ⟨hrbB, hq⟩
    refine Or.inr (Or.inr ⟨rb, hrbB, ?_, rfl⟩)
    unfold noMatchInA at hq
    exact (isEmpty_rowsWithKey _ _).mp hq

theorem joinRows_matched_mem (A B : DataFrame) (ra rb : Row)
    (hra : ra ∈ A.rows) (hrb : rb ∈ B.rows) (hk : keyOf rb = keyOf ra) :
    joinRows A B ra rb ∈ outerMergeRows A B := by
  unfold outerMergeRows
  apply List.mem_append_left
  rw [mem_concatRows]
  refine ⟨emitA A B ra, List.mem_map_of_mem _ hra, ?_⟩
  unfold emitA
  have hmem : rb ∈ rowsWithKey (keyOf ra) B.rows := (mem_rowsWithKey _ _ _).mpr ⟨hrb, hk⟩
  have hne : ¬ (rowsWithKey (keyOf ra) B.rows).isEmpty = true := by
    intro hE
    rw [List.isEmpty_iff] at hE
    rw [hE] at hmem
    exact absurd hmem (List.not_mem_nil rb)
  rw [if_neg hne]
  exact List.mem_map_of_mem _ hmem

theorem joinRows_aonly_mem (A B : DataFrame) (ra : Row)
    (hra : ra ∈ A.rows) (h0 : countKey (keyOf ra) B.rows = 0) :
    joinRows A B ra nullRow ∈ outerMergeRows A B := by
  unfold outerMergeRows
  apply List.mem_append_left
  rw [mem_concatRows]
  refine ⟨emitA A B ra, List.mem_map_of_mem _ hra, ?_⟩
  unfold emitA
  rw [if_pos ((isEmpty_rowsWithKey _ _).mpr h0)]
  exact List.mem_singleton.mpr rfl

theorem joinRows_bonly_mem (A B : DataFrame) (rb : Row)
    (hrb : rb ∈ B.rows) (h0 : countKey (keyOf rb) A.rows = 0) :
    joinRows A B (projKeys rb) rb ∈ outerMergeRows A B := by
  unfold outerMergeRows
  apply List.mem_append_right
  unfold bOnlyRows
  apply List.mem_map_of_mem
  rw [List.mem_filter]
  refine ⟨hrb, ?_⟩
  unfold noMatchInA
  exact (isEmpty_rowsWithKey _ _).mpr h0

theorem rowsWithKey_singleton (k : Cell × Cell) (l : List Row) (h : countKey k l = 1) :
    ∃ a, rowsWithKey k l = [a] := by
  have hlen : (rowsWithKey k l).length = 1 := by rw [length_rowsWithKey, h]
  exact List.length_eq_one.mp hlen

theorem eq_of_mem_countKey_one (k : Cell × Cell) (l : List Row) (x y : Row)
    (h1 : countKey k l = 1) (hx : x ∈ l) (hkx : keyOf x = k)
    (hy : y ∈ l) (hky : keyOf y = k) : x = y := by
  rcases rowsWithKey_singleton k l h1 with ⟨a, ha⟩
  have hxa : x ∈ rowsWithKey k l := (mem_rowsWithKey _ _ _).mpr ⟨hx, hkx⟩
  have hya : y ∈ rowsWithKey k l := (mem_rowsWithKey _ _ _).mpr ⟨hy, hky⟩
  rw [ha] at hxa hya
  rw [List.mem_singleton.mp hxa, List.mem_singleton.mp hya]

/-! Key-count bookkeeping via lists of keys. -/

theorem countKey_eq_countVal (k : Cell × Cell) (l : List Row) :
    countKey k l = countVal k (l.map keyOf) := by
  induction l with
  | nil => rfl
  | cons r rs ih => rw [List.map_cons, countKey, countVal, ih]

theorem countVal_eq_zero_of_not_mem (k : Cell × Cell) (l : List (Cell × Cell))
    (h : ¬ k ∈ l) : countVal k l = 0 := by
  induction l with
  | nil => rfl
  | cons x xs ih =>
    have hx : ¬ x = k := fun hh => h (by simp [hh])
    rw [countVal, if_neg hx, ih (fun hh => h (by simp [hh])), Nat.add_zero]

theorem countVal_eq_one_of_nodup (k : Cell × Cell) (l : List (Cell × Cell))
    (hnd : l.Nodup) (hk : k ∈ l) : countVal k l = 1 := by
  induction l with
  | nil => cases hk
  | cons x xs ih =>
    rcases List.nodup_cons.mp hnd with ⟨hx, hxs⟩
    cases List.mem_cons.mp hk with
    | inl he =>
      subst he
      rw [countVal, if_pos rfl, countVal_eq_zero_of_not_mem _ _ hx]
    | inr he =>
      have hxk : ¬ x = k := fun hh => hx (hh ▸ he)
      rw [countVal, if_neg hxk, ih hxs he, Nat.zero_add]

/-! Frame-level lemmas. -/

theorem hasCol_iff_mem (r : Row) (c : String) :
    hasCol r c = true ↔ c ∈ r.map Prod.fst := by
  induction r with
  | nil => simp [hasCol]
  | cons p r ih =>
    by_cases hp : p.1 = c
    · simp [hasCol, hp]
    · have hcp : ¬ c = p.1 := fun hh => hp hh.symm
      simp [hasCol, hp, ih, hcp]

theorem WF_renameFrame (A : DataFrame) (h : A.WF) : (renameFrame A).WF := by
  intro r hr
  rcases List.mem_map.mp hr with ⟨r0, hr0, rfl⟩
  rw [fsts_renameRow, h r0 hr0]
  rfl

theorem WF_setCol (f : DataFrame) (c : String) (v : Cell) (h : f.WF) : (setCol f c v).WF := by
  unfold setCol
  by_cases hc : c ∈ f.cols
  · rw [if_pos hc]
    intro r hr
    rcases List.mem_map.mp hr with ⟨r0, hr0, rfl⟩
    rw [fsts_setEntry, h r0 hr0]
  · rw [if_neg hc]
    intro r hr
    rcases List.mem_map.mp hr with ⟨r0, hr0, rfl⟩
    rw [List.map_append, h r0 hr0]
    rfl

theorem mem_cols_setCol (f : DataFrame) (c : String) (v : Cell) : c ∈ (setCol f c v).cols := by
  unfold setCol
  by_cases hc : c ∈ f.cols
  · rw [if_pos hc]
    exact hc
  · rw [if_neg hc]
    simp

theorem mem_cols_setCol_iff (f : DataFrame) (c : String) (v : Cell) (c' : String) :
    c' ∈ (setCol f c v).cols ↔ c' ∈ f.cols ∨ c' = c := by
  unfold setCol
  by_cases hc : c ∈ f.cols
  · rw [if_pos hc]
    constructor
    · exact Or.inl
    · rintro (h | rfl)
      · exact h
      · exact hc
  · rw [if_neg hc]
    simp

theorem getCell_setCol_self (f : DataFrame) (c : String) (v : Cell) (hWF : f.WF) :
    ∀ r ∈ (setCol f c v).rows, getCell r c = v := by
  unfold setCol
  by_cases hc : c ∈ f.cols
  · rw [if_pos hc]
    intro r hr
    rcases List.mem_map.mp hr with ⟨r0, hr0, rfl⟩
    rw [getCell_setEntry_self,
      if_pos ((hasCol_iff_mem r0 c).mpr (by rw [hWF r0 hr0]; exact hc))]
  · rw [if_neg hc]
    intro r hr
    rcases List.mem_map.mp hr with ⟨r0, hr0, rfl⟩
    have hhc : hasCol r0 c = false := by
      cases hb : hasCol r0 c
      · rfl
      · exact absurd ((hasCol_iff_mem r0 c).mp hb) (by rw [hWF r0 hr0]; exact hc)
    rw [getCell_append, hhc, if_neg (by simp)]
    simp [getCell]

theorem getCell_append_single_ne (r : Row) (c c' : String) (v : Cell) (h : ¬ c = c') :
    getCell (r ++ [(c, v)]) c' = getCell r c' := by
  rw [getCell_append]
  by_cases hb : hasCol r c' = true
  · rw [if_pos hb]
  · rw [if_neg hb, getCell_of_hasCol_eq_false r c' (by simpa using hb)]
    show (if c = c' then v else Cell.null) = Cell.null
    rw [if_neg h]

theorem keys_setCol (f : DataFrame) (c : String) (v : Cell)
    (hFN : ¬ c = "First names") (hSN : ¬ c = "Surname") :
    (setCol f c v).rows.map keyOf = f.rows.map keyOf := by
  unfold setCol
  by_cases hc : c ∈ f.cols
  · rw [if_pos hc]
    show (f.rows.map (setEntry c v)).map keyOf = f.rows.map keyOf
    rw [List.map_map]
    apply List.map_congr_left
    intro r _
    show keyOf (setEntry c v r) = keyOf r
    unfold keyOf
    rw [getCell_setEntry_ne c "First names" v r (fun hh => hFN hh.symm),
      getCell_setEntry_ne c "Surname" v r (fun hh => hSN hh.symm)]
  · rw [if_neg hc]
    show (f.rows.map (fun r => r ++ [(c, v)])).map keyOf = f.rows.map keyOf
    rw [List.map_map]
    apply List.map_congr_left
    intro r _
    show keyOf (r ++ [(c, v)]) = keyOf r
    unfold keyOf
    rw [getCell_append_single_ne r c "First names" v hFN,
      getCell_append_single_ne r c "Surname" v hSN]

theorem keys_renameFrame (A : DataFrame) (hWF : A.WF)
    (hLN : ¬ "Last name" ∈ A.cols) (hFstN : ¬ "First name" ∈ A.cols) :
    (renameFrame A).rows.map keyOf = A.rows.map keyOf := by
  unfold renameFrame
  show (A.rows.map renameRow).map keyOf = A.rows.map keyOf
  rw [List.map_map]
  apply List.map_congr_left
  intro r hr
  show keyOf (renameRow r) = keyOf r
  have hmem : ∀ p ∈ r, p.1 ∈ A.cols := by
    intro p hp
    rw [← hWF r hr]
    exact List.mem_map_of_mem _ hp
  unfold keyOf
  have hFN : getCell (renameRow r) "First names" = getCell r "First names" := by
    apply getCell_renameRow
    intro p hp
    constructor
    · intro hs
      unfold stdRename at hs
      by_cases h1 : p.1 = "Last name"
      · rw [if_pos h1] at hs
        exact absurd hs (by decide)
      · rw [if_neg h1] at hs
        by_cases h2 : p.1 = "First name"
        · exact absurd (h2 ▸ hmem p hp) hFstN
        · rwa [if_neg h2] at hs
    · intro hp1
      rw [hp1]
      decide
  have hSN : getCell (renameRow r) "Surname" = getCell r "Surname" := by
    apply getCell_renameRow
    intro p hp
    constructor
    · intro hs
      unfold stdRename at hs
      by_cases h1 : p.1 = "Last name"
      · exact absurd (h1 ▸ hmem p hp) hLN
      · rw [if_neg h1] at hs
        by_cases h2 : p.1 = "First name"
        · rw [if_pos h2] at hs
          exact absurd hs (by decide)
        · rwa [if_neg h2] at hs
    · intro hp1
      rw [hp1]
      decide
  rw [hFN, hSN]

/-! Lemmas about the two fill steps. -/

theorem keyOf_fill2 (r : Row) : keyOf (fill2 r) = keyOf r := by
  unfold keyOf fill2
  rw [getCell_fillEntry_ne _ _ _ _ (by decide), getCell_fillEntry_ne _ _ _ _ (by decide),
    getCell_fillEntry_ne _ _ _ _ (by decide), getCell_fillEntry_ne _ _ _ _ (by decide)]

theorem getCell_fill2_ne (r : Row) (t : String)
    (h1 : ¬ t = "In_LoveAdmin") (h2 : ¬ t = "In_FA_Club_Portal") :
    getCell (fill2 r) t = getCell r t := by
  unfold fill2
  rw [getCell_fillEntry_ne _ _ _ _ h2, getCell_fillEntry_ne _ _ _ _ h1]

theorem getCell_fill2_LA (r : Row) (h : hasCol r "In_LoveAdmin" = true) :
    getCell (fill2 r) "In_LoveAdmin" =
      if getCell r "In_LoveAdmin" = Cell.null then Cell.bool false
      else getCell r "In_LoveAdmin" := by
  unfold fill2
  rw [getCell_fillEntry_ne _ _ _ _ (by decide), getCell_fillEntry_self, h]
  by_cases hn : getCell r "In_LoveAdmin" = Cell.null <;> simp [hn]

theorem getCell_fill2_FA (r : Row) (h : hasCol r "In_FA_Club_Portal" = true) :
    getCell (fill2 r) "In_FA_Club_Portal" =
      if getCell r "In_FA_Club_Portal" = Cell.null then Cell.bool false
      else getCell r "In_FA_Club_Portal" := by
  unfold fill2
  rw [getCell_fillEntry_self, hasCol_fillEntry,
    getCell_fillEntry_ne _ _ _ _ (by decide), h]
  by_cases hn : getCell r "In_FA_Club_Portal" = Cell.null <;> simp [hn]

/-! Preparation of the two frames. -/

theorem WF_prepA (A : DataFrame) (h : A.WF) : (prepA A).WF :=
  WF_setCol _ _ _ (WF_renameFrame A h)

theorem WF_prepB (B : DataFrame) (h : B.WF) : (prepB B).WF :=
  WF_setCol _ _ _ h

theorem LA_mem_prepA (A : DataFrame) : "In_LoveAdmin" ∈ (prepA A).cols :=
  mem_cols_setCol _ _ _

theorem FA_mem_prepB (B : DataFrame) : "In_FA_Club_Portal" ∈ (prepB B).cols :=
  mem_cols_setCol _ _ _

theorem prepA_LA_true (A : DataFrame) (hWF : A.WF) :
    ∀ r ∈ (prepA A).rows, getCell r "In_LoveAdmin" = Cell.bool true :=
  getCell_setCol_self (renameFrame A) _ _ (WF_renameFrame A hWF)

theorem prepB_FA_true (B : DataFrame) (hWF : B.WF) :
    ∀ r ∈ (prepB B).rows, getCell r "In_FA_Club_Portal" = Cell.bool true :=
  getCell_setCol_self B _ _ hWF

/-! Facts extracted from a successful run of the shared core. -/

theorem mergedFilled_ok (A B : DataFrame) (out : DataFrame)
    (h : mergedFilled A B = Except.ok out) :
    ("First names" ∈ (prepA A).cols ∧ "Surname" ∈ (prepA A).cols ∧
      "First names" ∈ (prepB B).cols ∧ "Surname" ∈ (prepB B).cols) ∧
    (outerMergeCols (prepA A) (prepB B)).Nodup ∧
    "In_LoveAdmin" ∈ outerMergeCols (prepA A) (prepB B) ∧
    "In_FA_Club_Portal" ∈ outerMergeCols (prepA A) (prepB B) ∧
    out.cols = outerMergeCols (prepA A) (prepB B) ∧
    out.rows = (outerMergeRows (prepA A) (prepB B)).map fill2 := by
  unfold mergedFilled at h
  split at h
  · exact absurd h (by simp)
  case _ m heq =>
    unfold pdMerge at heq
    split at heq
    case isTrue hkeys =>
      split at heq
      case isTrue hnd =>
        injection heq with heqm
        split at h
        · exact absurd h (by simp)
        case _ m1 heq1 =>
          unfold fillnaCol at heq1
          split at heq1
          case isTrue hLA =>
            injection heq1 with heqm1
            unfold fillnaCol at h
            split at h
            case isTrue hFA =>
              injection h with heqout
              subst heqm
              subst heqm1
              rw [← heqout]
              simp only at hLA hFA
              exact ⟨hkeys, hnd, hLA, hFA, rfl, by rw [List.map_map]; rfl⟩
            case isFalse => exact absurd h (by simp)
          case isFalse => exact absurd heq1 (by simp)
      case isFalse => exact absurd heq (by simp)
    case isFalse => exact absurd heq (by simp)

theorem LA_not_in_prepB (A B : DataFrame)
    (hmem : "In_LoveAdmin" ∈ outerMergeCols (prepA A) (prepB B)) :
    ¬ "In_LoveAdmin" ∈ (prepB B).cols := by
  intro hB
  unfold outerMergeCols at hmem
  rcases List.mem_append.mp hmem with h | h
  · rcases List.mem_map.mp h with ⟨x, hxA, hax⟩
    have hx : x = "In_LoveAdmin" := asuf_eq_imp _ _ _ (by decide) x hax
    subst hx
    unfold asuf at hax
    rw [if_neg (by decide), if_pos hB] at hax
    exact absurd hax (append_x_ne _ _ (by decide))
  · rcases List.mem_map.mp h with ⟨x, hxB, hbx⟩
    have hx : x = "In_LoveAdmin" := bsuf_eq_imp _ _ _ (by decide) x hbx
    subst hx
    unfold bsuf at hbx
    rw [if_neg (by decide), if_pos (LA_mem_prepA A)] at hbx
    exact absurd hbx (append_y_ne _ _ (by decide))

theorem FA_not_in_prepA (A B : DataFrame)
    (hmem : "In_FA_Club_Portal" ∈ outerMergeCols (prepA A) (prepB B)) :
    ¬ "In_FA_Club_Portal" ∈ (prepA A).cols := by
  intro hA
  unfold outerMergeCols at hmem
  rcases List.mem_append.mp hmem with h | h
  · rcases List.mem_map.mp h with ⟨x, hxA, hax⟩
    have hx : x = "In_FA_Club_Portal" := asuf_eq_imp _ _ _ (by decide) x hax
    subst hx
    unfold asuf at hax
    rw [if_neg (by decide), if_pos (FA_mem_prepB B)] at hax
    exact absurd hax (append_x_ne _ _ (by decide))
  · rcases List.mem_map.mp h with ⟨x, hxB, hbx⟩
    have hx : x = "In_FA_Club_Portal" := bsuf_eq_imp _ _ _ (by decide) x hbx
    subst hx
    unfold bsuf at hbx
    rw [if_neg (by decide), if_pos hA] at hbx
    exact absurd hbx (append_y_ne _ _ (by decide))

/-! Values of the two presence flags in a merged-and-filled row. -/

theorem getCell_joinRows_LA (A B : DataFrame) (ra rb : Row)
    (hA : "In_LoveAdmin" ∈ A.cols) (hB : ¬ "In_LoveAdmin" ∈ B.cols) :
    getCell (joinRows A B ra rb) "In_LoveAdmin" = getCell ra "In_LoveAdmin" :=
  getCell_joinRows_left A B ra rb _ (by decide) (Or.inr hB) hA

theorem getCell_joinRows_FA (A B : DataFrame) (ra rb : Row)
    (hB : "In_FA_Club_Portal" ∈ B.cols) (hA : ¬ "In_FA_Club_Portal" ∈ A.cols) :
    getCell (joinRows A B ra rb) "In_FA_Club_Portal" = getCell rb "In_FA_Club_Portal" :=
  getCell_joinRows_right A B ra rb _ (by decide) (by decide) (by decide) hB hA

theorem fill2_joinRows_flags (A B : DataFrame) (ra rb : Row)
    (hLAA : "In_LoveAdmin" ∈ A.cols) (hLAB : ¬ "In_LoveAdmin" ∈ B.cols)
    (hFAB : "In_FA_Club_Portal" ∈ B.cols) (hFAA : ¬ "In_FA_Club_Portal" ∈ A.cols) :
    getCell (fill2 (joinRows A B ra rb)) "In_LoveAdmin"
        = (if getCell ra "In_LoveAdmin" = Cell.null then Cell.bool false
           else getCell ra "In_LoveAdmin") ∧
    getCell (fill2 (joinRows A B ra rb)) "In_FA_Club_Portal"
        = (if getCell rb "In_FA_Club_Portal" = Cell.null then Cell.bool false
           else getCell rb "In_FA_Club_Portal") := by
  constructor
  · rw [getCell_fill2_LA _ (hasCol_joinRows_left A B ra rb _ (Or.inr hLAB) hLAA),
      getCell_joinRows_LA A B ra rb hLAA hLAB]
  · rw [getCell_fill2_FA _ (hasCol_joinRows_right A B ra rb _ (by decide) hFAB hFAA),
      getCell_joinRows_FA A B ra rb hFAB hFAA]

theorem getCell_nullRow (c : String) : getCell nullRow c = Cell.null := rfl

theorem getCell_projKeys_LA (rb : Row) :
    getCell (projKeys rb) "In_LoveAdmin" = Cell.null := by
  simp [projKeys, getCell]

theorem getCell_projKeys_nonkey (rb : Row) (c : String) (hc : ¬ c ∈ keyCols) :
    getCell (projKeys rb) c = Cell.null := by
  have h1 : ¬ "First names" = c :=
    fun hh => hc (hh ▸ (by decide : "First names" ∈ keyCols))
  have h2 : ¬ "Surname" = c :=
    fun hh => hc (hh ▸ (by decide : "Surname" ∈ keyCols))
  simp [projKeys, getCell, h1, h2]

/-! Key sequences are unchanged by the preparation steps. -/

theorem keys_prepA (A : DataFrame) (hWF : A.WF)
    (hLN : ¬ "Last name" ∈ A.cols) (hFstN : ¬ "First name" ∈ A.cols) :
    (prepA A).rows.map keyOf = A.rows.map keyOf := by
  unfold prepA
  rw [keys_setCol _ _ _ (by decide) (by decide), keys_renameFrame A hWF hLN hFstN]

theorem keys_prepB (B : DataFrame) :
    (prepB B).rows.map keyOf = B.rows.map keyOf :=
  keys_setCol _ _ _ (by decide) (by decide)

theorem countVal_ne_zero_of_mem (k : Cell × Cell) (l : List (Cell × Cell))
    (h : k ∈ l) : ¬ countVal k l = 0 := by
  induction l with
  | nil => cases h
  | cons x xs ih =>
    intro h0
    rw [countVal] at h0
    by_cases hx : x = k
    · rw [if_pos hx] at h0
      omega
    · rw [if_neg hx, Nat.zero_add] at h0
      cases List.mem_cons.mp h with
      | inl he => exact hx he.symm
      | inr he => exact ih he h0

/-! Row count of the outer join when every key matches exactly once. -/

theorem length_outerMergeRows_unique (A B : DataFrame)
    (h1 : ∀ ra ∈ A.rows, countKey (keyOf ra) B.rows = 1)
    (h2 : ∀ rb ∈ B.rows, ¬ countKey (keyOf rb) A.rows = 0) :
    (outerMergeRows A B).length = A.rows.length := by
  unfold outerMergeRows
  rw [List.length_append]
  have hB : (bOnlyRows A B).length = 0 := by
    unfold bOnlyRows
    rw [List.length_map]
    have hnil : B.rows.filter (noMatchInA A) = [] := by
      rw [List.filter_eq_nil_iff]
      intro rb hrb
      unfold noMatchInA
      intro hE
      exact h2 rb hrb ((isEmpty_rowsWithKey _ _).mp hE)
    rw [hnil]
    rfl
  rw [hB, Nat.add_zero]
  suffices hgen : ∀ la : List Row, (∀ ra ∈ la, countKey (keyOf ra) B.rows = 1) →
      (concatRows (la.map (emitA A B))).length = la.length by
    exact hgen A.rows h1
  intro la hla
  induction la with
  | nil => rfl
  | cons ra ras ih =>
    rw [List.map_cons,
      show concatRows (emitA A B ra :: List.map (emitA A B) ras)
        = emitA A B ra ++ concatRows (List.map (emitA A B) ras) from rfl,
      List.length_append, List.length_cons, ih (fun x hx => hla x (by simp [hx]))]
    have hc := hla ra (by simp)
    have hlen : (emitA A B ra).length = 1 := by
      unfold emitA
      have hne : ¬ (rowsWithKey (keyOf ra) B.rows).isEmpty = true := by
        intro hE
        have h0 := (isEmpty_rowsWithKey _ _).mp hE
        omega
      rw [if_neg hne, List.length_map, length_rowsWithKey, hc]
    rw [hlen]
    omega

/-! The GUI try-block can never succeed: its column-reorder statement raises
on every execution, so its write is unreachable. -/

theorem guiCore_isOk_false (A B : DataFrame) : isOkB (guiCore A B) = false := by
  unfold guiCore
  by_cases h1 : ("Last name" ∈ A.cols ∧ "First name" ∈ A.cols)
  · rw [if_pos h1]
    by_cases h2 : ("First names" ∈ B.cols ∧ "Surname" ∈ B.cols)
    · rw [if_pos h2]
      cases hm : mergedFilled A B with
      | error e => rfl
      | ok m => rfl
    · rw [if_neg h2]
      rfl
  · rw [if_neg h1]
    rfl

theorem gui_never_writes (pA pB pOut : String) (rawA rawB : Raw) :
    hasWrite (validate_and_merge pA pB pOut rawA rawB) = false := by
  unfold validate_and_merge
  by_cases hp : (pA = "" ∨ pB = "" ∨ pOut = "")
  · rw [if_pos hp]
    rfl
  · rw [if_neg hp]
    cases hg : guiCore (read_excel rawA 0) (read_excel rawB 6) with
    | ok m =>
      have hfalse := guiCore_isOk_false (read_excel rawA 0) (read_excel rawB 6)
      rw [hg] at hfalse
      exact absurd hfalse (by simp [isOkB])
    | error e => rfl

/-- C3 (code bug): the GUI's column-reorder statement builds `columns_order`
with a list comprehension that references `columns_order` itself before the
assignment completes, so Python raises `NameError` on every run that reaches
it; reordering never happens and the GUI never produces output.  On a valid
input pair the handler's try-block ends in that `NameError`, and on every
input the try-block fails. -/
theorem c3_reorder_name_error :
    guiCore exA3 exB3 = Except.error (Err.nameError "name columns_order is not defined") ∧
    ∀ A B : DataFrame, isOkB (guiCore A B) = false :=
  ⟨by rfl, guiCore_isOk_false⟩

/-- C5: writing the output is the last step of both variants.  The CLI's
trace contains a write exactly when the run succeeds, so any failure during
load, validation or merge leaves no output file; the GUI never writes at all
because its try-block always fails before the write. -/
theorem c5_no_output_on_failure :
    (∀ rawA rawB : Raw,
      hasWrite (merge_datasets rawA rawB).fst = isOkU (merge_datasets rawA rawB).snd) ∧
    (∀ (pA pB pOut : String) (rawA rawB : Raw),
      hasWrite (validate_and_merge pA pB pOut rawA rawB) = false) := by
  constructor
  · intro rawA rawB
    unfold merge_datasets
    cases hm : mergedFilled (read_excel rawA 0) (read_excel rawB 6) with
    | ok m => rfl
    | error e => rfl
  · exact gui_never_writes

/-- C7: the reconciler is deterministic: the CLI run is a pure function of
its two inputs, so equal inputs give equal effect traces and outcomes. -/
theorem c7_deterministic (rawA rawB rawA2 rawB2 : Raw)
    (hA : rawA = rawA2) (hB : rawB = rawB2) :
    merge_datasets rawA rawB = merge_datasets rawA2 rawB2 := by
  rw [hA, hB]

/-- Witness for C7 at concrete inputs. -/
theorem c7_witness :
    merge_datasets exRawAnoLN exRawB = merge_datasets exRawAnoLN exRawB :=
  c7_deterministic exRawAnoLN exRawB exRawAnoLN exRawB rfl rfl

/-- C9 counterexample: the source-B skip count is a hardcoded 6, not an
exposed `header_skip_rows` parameter.  On a source-B file whose header is on
line 1 the CLI run always fails (it unconditionally skips the first 6 lines),
while the spec contract with its `header_skip_rows` argument set to 0
reconciles the same pair successfully; no argument of `merge_datasets`
selects that behavior. -/
theorem c9_cex :
    isOkU (merge_datasets exRawAnoLN exRawB9).snd = false ∧
    isOkB (reconcile_spec exRawAnoLN exRawB9 0) = true :=
  ⟨by rfl, by rfl⟩

/-- C9 amended: source A is read with its first line as the header; the
standard renaming maps "Last name" to "Surname" and "First name" to
"First names" and leaves every other label unchanged; source B is read by
dropping its first 6 lines and taking the next as the header.  The skip count
6 is hardcoded in the CLI (`merge_datasets` takes no `header_skip_rows`
argument), and the pipeline coincides with the spec contract `reconcile`
exactly at that fixed value. -/
theorem c9_loading :
    (∀ (hdr : List Cell) (body : Raw), read_excel (hdr :: body) 0
        = DataFrame.mk (hdr.map cellName) (body.map (mkRow (hdr.map cellName)))) ∧
    (∀ c : String, stdRename c =
      if c = "Last name" then "Surname"
      else if c = "First name" then "First names" else c) ∧
    (∀ A : DataFrame, (renameFrame A).cols = A.cols.map stdRename) ∧
    (∀ raw : Raw, read_excel raw 6 = read_excel (raw.drop 6) 0) ∧
    (∀ rawA rawB : Raw,
      mergedFilled (read_excel rawA 0) (read_excel rawB 6) = reconcile_spec rawA rawB 6) :=
  ⟨fun _ _ => rfl, fun _ => rfl, fun _ => rfl, fun _ => rfl, fun _ _ => rfl⟩

/-- C10: the GUI handler rejects a run with any empty path field by showing
only the error dialog - no file is read and nothing is written - and attempts
the merge (reading both inputs) exactly when all three paths are non-empty. -/
theorem c10_gui_path_guard (pA pB pOut : String) (rawA rawB : Raw) :
    ((pA = "" ∨ pB = "" ∨ pOut = "") →
      validate_and_merge pA pB pOut rawA rawB
        = [Effect.errorDialog "Please select all required files."]) ∧
    (¬ (pA = "" ∨ pB = "" ∨ pOut = "") →
      Effect.readA ∈ validate_and_merge pA pB pOut rawA rawB ∧
      Effect.readB ∈ validate_and_merge pA pB pOut rawA rawB) := by
  constructor
  · intro hp
    unfold validate_and_merge
    rw [if_pos hp]
  · intro hp
    unfold validate_and_merge
    rw [if_neg hp]
    cases hg : guiCore (read_excel rawA 0) (read_excel rawB 6) with
    | ok m => exact ⟨by simp, by simp⟩
    | error e => exact ⟨by simp, by simp⟩

/-- Witness for C10: an empty source-A path yields only the error dialog. -/
theorem c10_witness :
    validate_and_merge "" "b" "out" exRawAnoLN exRawB
      = [Effect.errorDialog "Please select all required files."] :=
  (c10_gui_path_guard "" "b" "out" exRawAnoLN exRawB).1 (Or.inl rfl)

/-- C2 counterexample: the CLI variant performs no schema validation.  On a
source A that lacks both "Last name" and "First name" (but carries the join
keys directly) the CLI run succeeds and writes the output instead of failing
with a schema error. -/
theorem c2_cex :
    ¬ "Last name" ∈ (read_excel exRawAnoLN 0).cols ∧
    ¬ "First name" ∈ (read_excel exRawAnoLN 0).cols ∧
    (merge_datasets exRawAnoLN exRawB).snd = Except.ok () ∧
    hasWrite (merge_datasets exRawAnoLN exRawB).fst = true :=
  ⟨by decide, by decide, by rfl, by rfl⟩

/-- C2 amended: only the GUI validates the schema.  A source A without
"Last name" or "First name", or a source B without "First names" or
"Surname", makes the GUI handler fail with the `ValueError` that names the
required columns and the source, before the join; and the GUI never writes
any output. -/
theorem c2_gui_schema_validation (A B : DataFrame) :
    (¬ ("Last name" ∈ A.cols ∧ "First name" ∈ A.cols) →
      guiCore A B = Except.error (Err.valueError
        "LoveAdmin file does not contain required columns: Last name, First name.")) ∧
    (("Last name" ∈ A.cols ∧ "First name" ∈ A.cols) →
      ¬ ("First names" ∈ B.cols ∧ "Surname" ∈ B.cols) →
      guiCore A B = Except.error (Err.valueError
        "FA Club Portal file does not contain required columns: First names, Surname.")) ∧
    (∀ (pA pB pOut : String) (rawA rawB : Raw),
      hasWrite (validate_and_merge pA pB pOut rawA rawB) = false) := by
  refine ⟨?_, ?_, gui_never_writes⟩
  · intro h1
    unfold guiCore
    rw [if_neg h1]
  · intro h1 h2
    unfold guiCore
    rw [if_pos h1, if_neg h2]

/-- Witness for C2: a frame without the LoveAdmin name columns triggers the
GUI schema error. -/
theorem c2_witness :
    guiCore exAnoLN exB3 = Except.error (Err.valueError
      "LoveAdmin file does not contain required columns: Last name, First name.") :=
  (c2_gui_schema_validation exAnoLN exB3).1 (by decide)

/-- C6: every key appears in the merged output exactly as often as the outer
join multiplies its occurrence counts in the two standardised sources: `n`
when it is absent on the left, `m` when absent on the right, and the
cross-product `m * n` when present on both sides. -/
theorem c6_outer_join_multiplicity (A B out : DataFrame)
    (h : mergedFilled A B = Except.ok out) (k : Cell × Cell) :
    countKey k out.rows
      = outerMult (countKey k (prepA A).rows) (countKey k (prepB B).rows) := by
  obtain ⟨⟨hFN_A, hSN_A, _, _⟩, _, _, _, _, hrows⟩ := mergedFilled_ok A B out h
  rw [hrows, countKey_map_preserving k fill2 _ (fun r _ => keyOf_fill2 r),
    countKey_outerMergeRows (prepA A) (prepB B) k hFN_A hSN_A]

/-- Witness for C6 at the concrete example pair. -/
theorem c6_witness :
    mergedFilled exA exB = Except.ok exOut ∧
    countKey exK exOut.rows
      = outerMult (countKey exK (prepA exA).rows) (countKey exK (prepB exB).rows) :=
  ⟨by rfl, c6_outer_join_multiplicity exA exB exOut (by rfl) exK⟩

/-- C4: in every successful run of the shared core, after the two fill steps
no row has a null value in either presence-flag column: every row carries a
boolean in both `In_LoveAdmin` and `In_FA_Club_Portal`. -/
theorem c4_flags_boolean (A B out : DataFrame) (hWA : A.WF) (hWB : B.WF)
    (h : mergedFilled A B = Except.ok out) :
    ∀ r ∈ out.rows,
      (∃ b : Bool, getCell r "In_LoveAdmin" = Cell.bool b) ∧
      (∃ b : Bool, getCell r "In_FA_Club_Portal" = Cell.bool b) := by
  obtain ⟨⟨hFN_A, hSN_A, hFN_B, hSN_B⟩, hnd, hLAmem, hFAmem, hcols, hrows⟩ :=
    mergedFilled_ok A B out h
  have hLAB := LA_not_in_prepB A B hLAmem
  have hFAA := FA_not_in_prepA A B hFAmem
  intro r hr
  rw [hrows] at hr
  rcases List.mem_map.mp hr with ⟨jr, hjr, rfl⟩
  rcases mem_outerMergeRows _ _ _ hjr with
    ⟨ra, hra, rb, hrb, hk, rfl⟩ | ⟨ra, hra, h0, rfl⟩ | ⟨rb, hrb, h0, rfl⟩
  · have hflags := fill2_joinRows_flags (prepA A) (prepB B) ra rb
      (LA_mem_prepA A) hLAB (FA_mem_prepB B) hFAA
    refine ⟨⟨true, ?_⟩, ⟨true, ?_⟩⟩
    · rw [hflags.1, prepA_LA_true A hWA ra hra]
      simp
    · rw [hflags.2, prepB_FA_true B hWB rb hrb]
      simp
  · have hflags := fill2_joinRows_flags (prepA A) (prepB B) ra nullRow
      (LA_mem_prepA A) hLAB (FA_mem_prepB B) hFAA
    refine ⟨⟨true, ?_⟩, ⟨false, ?_⟩⟩
    · rw [hflags.1, prepA_LA_true A hWA ra hra]
      simp
    · rw [hflags.2, getCell_nullRow]
      simp
  · have hflags := fill2_joinRows_flags (prepA A) (prepB B) (projKeys rb) rb
      (LA_mem_prepA A) hLAB (FA_mem_prepB B) hFAA
    refine ⟨⟨false, ?_⟩, ⟨true, ?_⟩⟩
    · rw [hflags.1, getCell_projKeys_LA]
      simp
    · rw [hflags.2, prepB_FA_true B hWB rb hrb]
      simp

/-- Witness for C4 at the concrete example pair. -/
theorem c4_witness :
    (∃ b : Bool, getCell exRow4 "In_LoveAdmin" = Cell.bool b) ∧
    (∃ b : Bool, getCell exRow4 "In_FA_Club_Portal" = Cell.bool b) :=
  c4_flags_boolean exA exB exOut (by decide) (by decide) (by rfl) exRow4 (by decide)

/-- C8 counterexample: merging a table with itself is not row-count
preserving when a key is duplicated: a two-row table whose rows share one key
self-merges to the four-row cross-product. -/
theorem c8_cex :
    exA8dup.rows.length = 2 ∧
    mergedFilled exA8dup exA8dup = Except.ok (okFrame (mergedFilled exA8dup exA8dup)) ∧
    (okFrame (mergedFilled exA8dup exA8dup)).rows.length = 4 :=
  ⟨rfl, by rfl, by rfl⟩

/-- C8 amended: merging a table `A` with itself as both inputs yields
`In_LoveAdmin = In_FA_Club_Portal = true` on every output row - including
tables carrying duplicated keys - and, provided the keys of `A` are pairwise
distinct, exactly as many rows as `A`.  (With a duplicated key the self-merge
instead multiplies it out, as the counterexample shows.) -/
theorem c8_self_merge (A out : DataFrame) (hWF : A.WF)
    (hFN : "First names" ∈ A.cols) (hSN : "Surname" ∈ A.cols)
    (hLN : ¬ "Last name" ∈ A.cols) (hFstN : ¬ "First name" ∈ A.cols)
    (h : mergedFilled A A = Except.ok out) :
    (∀ r ∈ out.rows, getCell r "In_LoveAdmin" = Cell.bool true ∧
      getCell r "In_FA_Club_Portal" = Cell.bool true) ∧
    ((A.rows.map keyOf).Nodup → out.rows.length = A.rows.length) := by
  obtain ⟨⟨hFN_A, hSN_A, hFN_B, hSN_B⟩, hndC, hLAmem, hFAmem, hcols, hrows⟩ :=
    mergedFilled_ok A A out h
  have hLAB := LA_not_in_prepB A A hLAmem
  have hFAA := FA_not_in_prepA A A hFAmem
  have hkA : (prepA A).rows.map keyOf = A.rows.map keyOf := keys_prepA A hWF hLN hFstN
  have hkB : (prepB A).rows.map keyOf = A.rows.map keyOf := keys_prepB A
  have hA_nonzero : ∀ ra ∈ (prepA A).rows, ¬ countKey (keyOf ra) (prepB A).rows = 0 := by
    intro ra hra h0
    rw [countKey_eq_countVal, hkB] at h0
    have hmem : keyOf ra ∈ A.rows.map keyOf := by
      rw [← hkA]
      exact List.mem_map_of_mem keyOf hra
    exact countVal_ne_zero_of_mem _ _ hmem h0
  have hB_nonzero : ∀ rb ∈ (prepB A).rows, ¬ countKey (keyOf rb) (prepA A).rows = 0 := by
    intro rb hrb h0
    rw [countKey_eq_countVal, hkA] at h0
    have hmem : keyOf rb ∈ A.rows.map keyOf := by
      rw [← hkB]
      exact List.mem_map_of_mem keyOf hrb
    exact countVal_ne_zero_of_mem _ _ hmem h0
  constructor
  · intro r hr
    rw [hrows] at hr
    rcases List.mem_map.mp hr with ⟨jr, hjr, rfl⟩
    rcases mem_outerMergeRows _ _ _ hjr with
      ⟨ra, hra, rb, hrb, hk, rfl⟩ | ⟨ra, hra, h0, rfl⟩ | ⟨rb, hrb, h0, rfl⟩
    · have hflags := fill2_joinRows_flags (prepA A) (prepB A) ra rb
        (LA_mem_prepA A) hLAB (FA_mem_prepB A) hFAA
      constructor
      · rw [hflags.1, prepA_LA_true A hWF ra hra]
        simp
      · rw [hflags.2, prepB_FA_true A hWF rb hrb]
        simp
    · exact absurd h0 (hA_nonzero ra hra)
    · exact absurd h0 (hB_nonzero rb hrb)
  · intro hnd
    have h1 : ∀ ra ∈ (prepA A).rows, countKey (keyOf ra) (prepB A).rows = 1 := by
      intro ra hra
      rw [countKey_eq_countVal, hkB]
      apply countVal_eq_one_of_nodup _ _ hnd
      rw [← hkA]
      exact List.mem_map_of_mem keyOf hra
    have hlenA : (prepA A).rows.length = A.rows.length := by
      have hc := congrArg List.length hkA
      simpa using hc
    rw [hrows, List.length_map,
      length_outerMergeRows_unique (prepA A) (prepB A) h1 hB_nonzero, hlenA]

/-- Witness for C8: the distinct-key table self-merges to its own row count,
and a row of the duplicated-key self-merge still carries both flags true. -/
theorem c8_witness :
    (okFrame (mergedFilled exA8 exA8)).rows.length = exA8.rows.length ∧
    (getCell exRow8dup "In_LoveAdmin" = Cell.bool true ∧
      getCell exRow8dup "In_FA_Club_Portal" = Cell.bool true) :=
  ⟨(c8_self_merge exA8 (okFrame (mergedFilled exA8 exA8)) (by decide) (by decide)
      (by decide) (by decide) (by decide) (by rfl)).2 (by decide),
    (c8_self_merge exA8dup (okFrame (mergedFilled exA8dup exA8dup)) (by decide)
      (by decide) (by decide) (by decide) (by decide) (by rfl)).1
      exRow8dup (by decide)⟩

/-- C1: full outer join on the name pair.  In every successful run, for a key
without duplicates on either side: present on both sides it yields exactly one
output row, namely the join of its two source rows (columns from both sides
merged, as `joinRows` lists them) with both flags true; present only in A it
yields exactly one row, the A row null-extended on the B side, with
`In_LoveAdmin = true`, `In_FA_Club_Portal = false` and every B-side non-key
non-flag column null; present only in B the symmetric result holds. -/
theorem c1_full_outer_join (A B out : DataFrame) (hWA : A.WF) (hWB : B.WF)
    (h : mergedFilled A B = Except.ok out) (k : Cell × Cell) :
    (countKey k (prepA A).rows = 1 → countKey k (prepB B).rows = 1 →
      countKey k out.rows = 1 ∧
      ∀ ra ∈ (prepA A).rows, keyOf ra = k → ∀ rb ∈ (prepB B).rows, keyOf rb = k →
        rowsWithKey k out.rows = [fill2 (joinRows (prepA A) (prepB B) ra rb)] ∧
        getCell (fill2 (joinRows (prepA A) (prepB B) ra rb)) "In_LoveAdmin"
          = Cell.bool true ∧
        getCell (fill2 (joinRows (prepA A) (prepB B) ra rb)) "In_FA_Club_Portal"
          = Cell.bool true) ∧
    (countKey k (prepA A).rows = 1 → countKey k (prepB B).rows = 0 →
      countKey k out.rows = 1 ∧
      ∀ ra ∈ (prepA A).rows, keyOf ra = k →
        rowsWithKey k out.rows = [fill2 (joinRows (prepA A) (prepB B) ra nullRow)] ∧
        getCell (fill2 (joinRows (prepA A) (prepB B) ra nullRow)) "In_LoveAdmin"
          = Cell.bool true ∧
        getCell (fill2 (joinRows (prepA A) (prepB B) ra nullRow)) "In_FA_Club_Portal"
          = Cell.bool false ∧
        (∀ c ∈ (prepB B).cols, nonKey c = true → ¬ c = "In_FA_Club_Portal" →
          getCell (fill2 (joinRows (prepA A) (prepB B) ra nullRow))
            (bsuf (prepA A) (prepB B) c) = Cell.null)) ∧
    (countKey k (prepA A).rows = 0 → countKey k (prepB B).rows = 1 →
      countKey k out.rows = 1 ∧
      ∀ rb ∈ (prepB B).rows, keyOf rb = k →
        rowsWithKey k out.rows
          = [fill2 (joinRows (prepA A) (prepB B) (projKeys rb) rb)] ∧
        getCell (fill2 (joinRows (prepA A) (prepB B) (projKeys rb) rb)) "In_LoveAdmin"
          = Cell.bool false ∧
        getCell (fill2 (joinRows (prepA A) (prepB B) (projKeys rb) rb)) "In_FA_Club_Portal"
          = Cell.bool true ∧
        (∀ c ∈ (prepA A).cols, nonKey c = true → ¬ c = "In_LoveAdmin" →
          getCell (fill2 (joinRows (prepA A) (prepB B) (projKeys rb) rb))
            (asuf (prepA A) (prepB B) c) = Cell.null)) := by
  obtain ⟨⟨hFN_A, hSN_A, hFN_B, hSN_B⟩, hnd, hLAmem, hFAmem, hcols, hrows⟩ :=
    mergedFilled_ok A B out h
  have hLAB := LA_not_in_prepB A B hLAmem
  have hFAA := FA_not_in_prepA A B hFAmem
  have hcnt : ∀ k' : Cell × Cell, countKey k' out.rows
      = outerMult (countKey k' (prepA A).rows) (countKey k' (prepB B).rows) := by
    intro k'
    rw [hrows, countKey_map_preserving k' fill2 _ (fun r _ => keyOf_fill2 r),
      countKey_outerMergeRows (prepA A) (prepB B) k' hFN_A hSN_A]
  have hrk : rowsWithKey k out.rows
      = (rowsWithKey k (outerMergeRows (prepA A) (prepB B))).map fill2 := by
    rw [hrows, rowsWithKey_map_preserving k fill2 _ (fun r _ => keyOf_fill2 r)]
  have hcnt_outer : countKey k (outerMergeRows (prepA A) (prepB B))
      = outerMult (countKey k (prepA A).rows) (countKey k (prepB B).rows) :=
    countKey_outerMergeRows (prepA A) (prepB B) k hFN_A hSN_A
  have hsingle : ∀ x ∈ outerMergeRows (prepA A) (prepB B), keyOf x = k →
      countKey k (outerMergeRows (prepA A) (prepB B)) = 1 →
      rowsWithKey k out.rows = [fill2 x] := by
    intro x hx hkx hc1
    rcases rowsWithKey_singleton k _ hc1 with ⟨a, ha⟩
    have hxa : x ∈ rowsWithKey k (outerMergeRows (prepA A) (prepB B)) :=
      (mem_rowsWithKey _ _ _).mpr ⟨hx, hkx⟩
    rw [ha] at hxa
    rw [hrk, ha, ← List.mem_singleton.mp hxa]
    rfl
  refine ⟨?_, ?_, ?_⟩
  · intro hm hn
    have hc1 : countKey k (outerMergeRows (prepA A) (prepB B)) = 1 := by
      rw [hcnt_outer, hm, hn]
      rfl
    refine ⟨by rw [hcnt k, hm, hn]; rfl, ?_⟩
    intro ra hra hkra rb hrb hkrb
    have hkba : keyOf rb = keyOf ra := by rw [hkra, hkrb]
    have hflags := fill2_joinRows_flags (prepA A) (prepB B) ra rb
      (LA_mem_prepA A) hLAB (FA_mem_prepB B) hFAA
    refine ⟨hsingle _ (joinRows_matched_mem _ _ ra rb hra hrb hkba)
        (by rw [keyOf_joinRows _ _ _ _ hFN_A hSN_A, hkra]) hc1, ?_, ?_⟩
    · rw [hflags.1, prepA_LA_true A hWA ra hra]
      simp
    · rw [hflags.2, prepB_FA_true B hWB rb hrb]
      simp
  · intro hm hn
    have hc1 : countKey k (outerMergeRows (prepA A) (prepB B)) = 1 := by
      rw [hcnt_outer, hm, hn]
      rfl
    refine ⟨by rw [hcnt k, hm, hn]; rfl, ?_⟩
    intro ra hra hkra
    have hflags := fill2_joinRows_flags (prepA A) (prepB B) ra nullRow
      (LA_mem_prepA A) hLAB (FA_mem_prepB B) hFAA
    refine ⟨hsingle _ (joinRows_aonly_mem _ _ ra hra (by rw [hkra]; exact hn))
        (by rw [keyOf_joinRows _ _ _ _ hFN_A hSN_A, hkra]) hc1, ?_, ?_, ?_⟩
    · rw [hflags.1, prepA_LA_true A hWA ra hra]
      simp
    · rw [hflags.2, getCell_nullRow]
      simp
    · intro c hcB hcnk hcFA
      have hbLA : ¬ bsuf (prepA A) (prepB B) c = "In_LoveAdmin" :=
        fun hh => hLAB ((bsuf_eq_imp _ _ _ (by decide) c hh) ▸ hcB)
      have hbFA : ¬ bsuf (prepA A) (prepB B) c = "In_FA_Club_Portal" :=
        fun hh => hcFA (bsuf_eq_imp _ _ _ (by decide) c hh)
      rw [getCell_fill2_ne _ _ hbLA hbFA]
      unfold joinRows
      rw [getCell_append]
      have hdisj : ((prepA A).cols.map (asuf (prepA A) (prepB B))).Disjoint
          (((prepB B).cols.filter nonKey).map (bsuf (prepA A) (prepB B))) := by
        have hnd' := hnd
        unfold outerMergeCols at hnd'
        exact List.disjoint_of_nodup_append hnd'
      have hno : hasCol ((prepA A).cols.map
          (fun c' => (asuf (prepA A) (prepB B) c', getCell ra c')))
          (bsuf (prepA A) (prepB B) c) = false := by
        rw [hasCol_mapCols, List.any_eq_false]
        intro x hxA
        simp only [decide_eq_true_eq]
        intro hax
        exact hdisj (hax ▸ List.mem_map_of_mem _ hxA)
          (List.mem_map_of_mem _ (List.mem_filter.mpr ⟨hcB, hcnk⟩))
      rw [hno, if_neg (by simp)]
      refine getCell_allNull _ ?_ _
      intro p hp
      rcases List.mem_map.mp hp with ⟨x, _, rfl⟩
      rfl
  · intro hm hn
    have hc1 : countKey k (outerMergeRows (prepA A) (prepB B)) = 1 := by
      rw [hcnt_outer, hm, hn]
      rfl
    refine ⟨by rw [hcnt k, hm, hn]; rfl, ?_⟩
    intro rb hrb hkrb
    have hflags := fill2_joinRows_flags (prepA A) (prepB B) (projKeys rb) rb
      (LA_mem_prepA A) hLAB (FA_mem_prepB B) hFAA
    refine ⟨hsingle _ (joinRows_bonly_mem _ _ rb hrb (by rw [hkrb]; exact hm))
        (by rw [keyOf_joinRows _ _ _ _ hFN_A hSN_A, keyOf_projKeys, hkrb]) hc1,
      ?_, ?_, ?_⟩
    · rw [hflags.1, getCell_projKeys_LA]
      simp
    · rw [hflags.2, prepB_FA_true B hWB rb hrb]
      simp
    · intro c hcA hcnk hcLA
      have haLA : ¬ asuf (prepA A) (prepB B) c = "In_LoveAdmin" :=
        fun hh => hcLA (asuf_eq_imp _ _ _ (by decide) c hh)
      have haFA : ¬ asuf (prepA A) (prepB B) c = "In_FA_Club_Portal" :=
        fun hh => hFAA ((asuf_eq_imp _ _ _ (by decide) c hh) ▸ hcA)
      rw [getCell_fill2_ne _ _ haLA haFA]
      unfold joinRows
      rw [getCell_append]
      have hyes : hasCol ((prepA A).cols.map
          (fun c' => (asuf (prepA A) (prepB B) c', getCell (projKeys rb) c')))
          (asuf (prepA A) (prepB B) c) = true := by
        rw [hasCol_mapCols, List.any_eq_true]
        exact ⟨c, hcA, by simp⟩
      rw [hyes, if_pos rfl]
      have hndl : ((prepA A).cols.map (asuf (prepA A) (prepB B))).Nodup := by
        have hnd' := hnd
        unfold outerMergeCols at hnd'
        exact (List.nodup_append.mp hnd').1
      rw [getCell_mapCols_inj _ _ _ c hcA
        (fun x hx y hy => List.inj_on_of_nodup_map hndl hx hy)]
      exact getCell_projKeys_nonkey rb c (by simpa [nonKey] using hcnk)

/-- Witness for C1: the shared key of the example pair occurs once on each
side and once in the output. -/
theorem c1_witness :
    countKey exK (prepA exA).rows = 1 ∧ countKey exK (prepB exB).rows = 1 ∧
    countKey exK exOut.rows = 1 :=
  ⟨by decide, by decide,
    ((c1_full_outer_join exA exB exOut (by decide) (by decide) (by rfl) exK).1
      (by decide) (by decide)).1⟩
